import Mathlib

/-!
Formal model of the snowflakepro-go repository: the 16-byte SFID identifier
codec (binary and base-32 text encodings, field accessors and mutators,
ordering, database scanning) from `id.go`, and the SnowflakePro sequence
generator.

Go bytes are modelled as natural numbers; byte-level operations truncate
modulo 256 exactly where the Go `byte` type does.  Go functions that mutate
an identifier through a pointer and return an `error` are modelled as
functions returning the possible error together with the new identifier
value; when an error is returned the identifier equals the input, mirroring
the Go code, which returns before writing.  Wall-clock reads inside the
generator are modelled by passing the current millisecond as an explicit
argument; strings are modelled as their byte sequences (`List Nat`).
-/

namespace SnowflakePro

/-- Errors of the package, one constructor per exported error variable
(`ErrDataSize`, `ErrInvalidCharacters`, `ErrBufferSize`, `ErrBigTime`,
`ErrBigNonce`, `ErrBigSN`, `ErrOverflow`, `ErrScanValue`). -/
inductive Err where
  | dataSize
  | invalidCharacters
  | bufferSize
  | bigTime
  | bigNonce
  | bigSN
  | overflow
  | scanValue
  deriving DecidableEq

/-- `type SFID [16]byte`: a 16 byte snowflake sortable identifier, most
significant byte first.  Each field holds one byte. -/
@[ext]
structure SFID where
  b0 : Nat
  b1 : Nat
  b2 : Nat
  b3 : Nat
  b4 : Nat
  b5 : Nat
  b6 : Nat
  b7 : Nat
  b8 : Nat
  b9 : Nat
  b10 : Nat
  b11 : Nat
  b12 : Nat
  b13 : Nat
  b14 : Nat
  b15 : Nat
  deriving DecidableEq

/-- Well-formedness of the model: every component is a byte.  In Go this is
enforced by the `[16]byte` type. -/
def Wf (id : SFID) : Prop :=
  id.b0 < 256 ∧ id.b1 < 256 ∧ id.b2 < 256 ∧ id.b3 < 256 ∧
  id.b4 < 256 ∧ id.b5 < 256 ∧ id.b6 < 256 ∧ id.b7 < 256 ∧
  id.b8 < 256 ∧ id.b9 < 256 ∧ id.b10 < 256 ∧ id.b11 < 256 ∧
  id.b12 < 256 ∧ id.b13 < 256 ∧ id.b14 < 256 ∧ id.b15 < 256

instance (id : SFID) : Decidable (Wf id) := by
  unfold Wf
  infer_instance

/-- `id[:]` — the identifier as its byte sequence. -/
def SFID.bytes (id : SFID) : List Nat :=
  [id.b0, id.b1, id.b2, id.b3, id.b4, id.b5, id.b6, id.b7,
   id.b8, id.b9, id.b10, id.b11, id.b12, id.b13, id.b14, id.b15]

/-- The all-zero identifier, the zero value `var id SFID` in Go. -/
def zeroSFID : SFID := ⟨0, 0, 0, 0, 0, 0, 0, 0, 0, 0, 0, 0, 0, 0, 0, 0⟩

/-- Go shift-left on a `byte` operand: the result is truncated to 8 bits. -/
def bshl (x n : Nat) : Nat := (x <<< n) % 256

/-- `EncodedSize`: the length of a text encoded SFID. -/
def EncodedSize : Nat := 26

/-- The byte values of the base 32 encoding alphabet
`Encoding = "0123456789ABCDEFGHJKMNPQRSTVWXYZ"`. -/
def Encoding : List Nat :=
  [48, 49, 50, 51, 52, 53, 54, 55, 56, 57, 65, 66, 67, 68, 69, 70,
   71, 72, 74, 75, 77, 78, 80, 81, 82, 83, 84, 86, 87, 88, 89, 90]

/-- `Encoding[j]`: the alphabet symbol for a 5-bit value. -/
def encChar (j : Nat) : Nat := Encoding.getD j 0

/-- The byte-to-index table `dec`, 256 entries, copied from the source;
255 (`0xFF`) is the sentinel for invalid bytes. -/
def decTable : List Nat :=
  [255, 255, 255, 255, 255, 255, 255, 255, 255, 255, 255, 255, 255, 255, 255, 255,
   255, 255, 255, 255, 255, 255, 255, 255, 255, 255, 255, 255, 255, 255, 255, 255,
   255, 255, 255, 255, 255, 255, 255, 255, 255, 255, 255, 255, 255, 255, 255, 255,
   0, 1, 2, 3, 4, 5, 6, 7, 8, 9, 255, 255, 255, 255, 255, 255,
   255, 10, 11, 12, 13, 14, 15, 16, 17, 255, 18, 19, 255, 20, 21, 255,
   22, 23, 24, 25, 26, 255, 27, 28, 29, 30, 31, 255, 255, 255, 255, 255,
   255, 10, 11, 12, 13, 14, 15, 16, 17, 255, 18, 19, 255, 20, 21, 255,
   22, 23, 24, 25, 26, 255, 27, 28, 29, 30, 31, 255, 255, 255, 255, 255,
   255, 255, 255, 255, 255, 255, 255, 255, 255, 255, 255, 255, 255, 255, 255, 255,
   255, 255, 255, 255, 255, 255, 255, 255, 255, 255, 255, 255, 255, 255, 255, 255,
   255, 255, 255, 255, 255, 255, 255, 255, 255, 255, 255, 255, 255, 255, 255, 255,
   255, 255, 255, 255, 255, 255, 255, 255, 255, 255, 255, 255, 255, 255, 255, 255,
   255, 255, 255, 255, 255, 255, 255, 255, 255, 255, 255, 255, 255, 255, 255, 255,
   255, 255, 255, 255, 255, 255, 255, 255, 255, 255, 255, 255, 255, 255, 255, 255,
   255, 255, 255, 255, 255, 255, 255, 255, 255, 255, 255, 255, 255, 255, 255, 255,
   255, 255, 255, 255, 255, 255, 255, 255, 255, 255, 255, 255, 255, 255, 255, 255]

/-- `dec[c]` — table lookup; a Go index is always a byte, so the default is
never reached on well-formed input. -/
def dec (c : Nat) : Nat := decTable.getD c 255

/-- `func parse(v []byte, strict bool, id *SFID) error`.  Checks the length,
then in strict mode the alphabet membership of all 26 bytes, then the
overflow of the first character (`v[0] > '7'`, with `'7' = 55`), and only
then decodes into the destination with the unrolled loop. -/
def parse (v : List Nat) (strict : Bool) (id : SFID) : Option Err × SFID :=
  if v.length ≠ EncodedSize then (some .dataSize, id)
  else if strict ∧
      (dec (v.getD 0 0) = 255 ∨ dec (v.getD 1 0) = 255 ∨
       dec (v.getD 2 0) = 255 ∨ dec (v.getD 3 0) = 255 ∨
       dec (v.getD 4 0) = 255 ∨ dec (v.getD 5 0) = 255 ∨
       dec (v.getD 6 0) = 255 ∨ dec (v.getD 7 0) = 255 ∨
       dec (v.getD 8 0) = 255 ∨ dec (v.getD 9 0) = 255 ∨
       dec (v.getD 10 0) = 255 ∨ dec (v.getD 11 0) = 255 ∨
       dec (v.getD 12 0) = 255 ∨ dec (v.getD 13 0) = 255 ∨
       dec (v.getD 14 0) = 255 ∨ dec (v.getD 15 0) = 255 ∨
       dec (v.getD 16 0) = 255 ∨ dec (v.getD 17 0) = 255 ∨
       dec (v.getD 18 0) = 255 ∨ dec (v.getD 19 0) = 255 ∨
       dec (v.getD 20 0) = 255 ∨ dec (v.getD 21 0) = 255 ∨
       dec (v.getD 22 0) = 255 ∨ dec (v.getD 23 0) = 255 ∨
       dec (v.getD 24 0) = 255 ∨ dec (v.getD 25 0) = 255) then
    (some .invalidCharacters, id)
  else if v.getD 0 0 > 55 then (some .overflow, id)
  else
    (none,
      { b0 := bshl (dec (v.getD 0 0)) 5 ||| dec (v.getD 1 0)
        b1 := bshl (dec (v.getD 2 0)) 3 ||| (dec (v.getD 3 0) >>> 2)
        b2 := bshl (dec (v.getD 3 0)) 6 ||| bshl (dec (v.getD 4 0)) 1 |||
              (dec (v.getD 5 0) >>> 4)
        b3 := bshl (dec (v.getD 5 0)) 4 ||| (dec (v.getD 6 0) >>> 1)
        b4 := bshl (dec (v.getD 6 0)) 7 ||| bshl (dec (v.getD 7 0)) 2 |||
              (dec (v.getD 8 0) >>> 3)
        b5 := bshl (dec (v.getD 8 0)) 5 ||| dec (v.getD 9 0)
        b6 := bshl (dec (v.getD 10 0)) 3 ||| (dec (v.getD 11 0) >>> 2)
        b7 := bshl (dec (v.getD 11 0)) 6 ||| bshl (dec (v.getD 12 0)) 1 |||
              (dec (v.getD 13 0) >>> 4)
        b8 := bshl (dec (v.getD 13 0)) 4 ||| (dec (v.getD 14 0) >>> 1)
        b9 := bshl (dec (v.getD 14 0)) 7 ||| bshl (dec (v.getD 15 0)) 2 |||
              (dec (v.getD 16 0) >>> 3)
        b10 := bshl (dec (v.getD 16 0)) 5 ||| dec (v.getD 17 0)
        b11 := bshl (dec (v.getD 18 0)) 3 ||| (dec (v.getD 19 0) >>> 2)
        b12 := bshl (dec (v.getD 19 0)) 6 ||| bshl (dec (v.getD 20 0)) 1 |||
               (dec (v.getD 21 0) >>> 4)
        b13 := bshl (dec (v.getD 21 0)) 4 ||| (dec (v.getD 22 0) >>> 1)
        b14 := bshl (dec (v.getD 22 0)) 7 ||| bshl (dec (v.getD 23 0)) 2 |||
               (dec (v.getD 24 0) >>> 3)
        b15 := bshl (dec (v.getD 24 0)) 5 ||| dec (v.getD 25 0) })

/-- `Parse`: parse from a fresh zero identifier, non-strict. -/
def Parse (s : List Nat) : Option Err × SFID := parse s false zeroSFID

/-- `ParseStrict`: parse from a fresh zero identifier, strict. -/
def ParseStrict (s : List Nat) : Option Err × SFID := parse s true zeroSFID

/-- `UnmarshalText` parses into an existing identifier, non-strict. -/
def SFID.UnmarshalText (id : SFID) (v : List Nat) : Option Err × SFID :=
  parse v false id

/-- The body of `MarshalTextTo`: the 26 output bytes of the unrolled
encoding loop. -/
def marshalText (id : SFID) : List Nat :=
  [encChar ((id.b0 &&& 224) >>> 5),
   encChar (id.b0 &&& 31),
   encChar ((id.b1 &&& 248) >>> 3),
   encChar (bshl (id.b1 &&& 7) 2 ||| ((id.b2 &&& 192) >>> 6)),
   encChar ((id.b2 &&& 62) >>> 1),
   encChar (bshl (id.b2 &&& 1) 4 ||| ((id.b3 &&& 240) >>> 4)),
   encChar (bshl (id.b3 &&& 15) 1 ||| ((id.b4 &&& 128) >>> 7)),
   encChar ((id.b4 &&& 124) >>> 2),
   encChar (bshl (id.b4 &&& 3) 3 ||| ((id.b5 &&& 224) >>> 5)),
   encChar (id.b5 &&& 31),
   encChar ((id.b6 &&& 248) >>> 3),
   encChar (bshl (id.b6 &&& 7) 2 ||| ((id.b7 &&& 192) >>> 6)),
   encChar ((id.b7 &&& 62) >>> 1),
   encChar (bshl (id.b7 &&& 1) 4 ||| ((id.b8 &&& 240) >>> 4)),
   encChar (bshl (id.b8 &&& 15) 1 ||| ((id.b9 &&& 128) >>> 7)),
   encChar ((id.b9 &&& 124) >>> 2),
   encChar (bshl (id.b9 &&& 3) 3 ||| ((id.b10 &&& 224) >>> 5)),
   encChar (id.b10 &&& 31),
   encChar ((id.b11 &&& 248) >>> 3),
   encChar (bshl (id.b11 &&& 7) 2 ||| ((id.b12 &&& 192) >>> 6)),
   encChar ((id.b12 &&& 62) >>> 1),
   encChar (bshl (id.b12 &&& 1) 4 ||| ((id.b13 &&& 240) >>> 4)),
   encChar (bshl (id.b13 &&& 15) 1 ||| ((id.b14 &&& 128) >>> 7)),
   encChar ((id.b14 &&& 124) >>> 2),
   encChar (bshl (id.b14 &&& 3) 3 ||| ((id.b15 &&& 224) >>> 5)),
   encChar (id.b15 &&& 31)]

/-- `MarshalTextTo`: fails on a destination whose length is not 26,
otherwise writes the text encoding. -/
def SFID.MarshalTextTo (id : SFID) (dst : List Nat) : Option Err × List Nat :=
  if dst.length ≠ EncodedSize then (some .bufferSize, dst)
  else (none, marshalText id)

/-- `String()` allocates a 26-byte buffer and calls `MarshalTextTo`, so it
always returns the text encoding. -/
def SFID.text (id : SFID) : List Nat := marshalText id

/-- `MarshalBinary`: the identifier as a byte slice. -/
def SFID.MarshalBinary (id : SFID) : List Nat := id.bytes

/-- `UnmarshalBinary`: fails when the data length differs from 16,
otherwise copies the data into the identifier. -/
def SFID.UnmarshalBinary (id : SFID) (data : List Nat) : Option Err × SFID :=
  if data.length ≠ 16 then (some .dataSize, id)
  else
    (none,
      ⟨data.getD 0 0, data.getD 1 0, data.getD 2 0, data.getD 3 0,
       data.getD 4 0, data.getD 5 0, data.getD 6 0, data.getD 7 0,
       data.getD 8 0, data.getD 9 0, data.getD 10 0, data.getD 11 0,
       data.getD 12 0, data.getD 13 0, data.getD 14 0, data.getD 15 0⟩)

/-- `Time()`: the Unix time in milliseconds encoded in the SFID. -/
def SFID.Time (id : SFID) : Nat :=
  id.b5 ||| (id.b4 <<< 8) ||| (id.b3 <<< 16) ||| (id.b2 <<< 24) |||
  (id.b1 <<< 32) ||| (id.b0 <<< 40)

/-- `Node()`: the node id encoded in the SFID. -/
def SFID.Node (id : SFID) : Nat := (id.b6 <<< 8) ||| id.b7

/-- `Nonce()`: the nonce encoded in the SFID. -/
def SFID.Nonce (id : SFID) : Nat :=
  (id.b8 <<< 32) ||| (id.b9 <<< 24) ||| (id.b10 <<< 16) |||
  (id.b11 <<< 8) ||| id.b12

/-- `SN()`: the sequence number encoded in the SFID. -/
def SFID.SN (id : SFID) : Nat :=
  (id.b13 <<< 16) ||| (id.b14 <<< 8) ||| id.b15

/-- `maxTime = SFID{0xFF, 0xFF, 0xFF, 0xFF, 0xFF, 0xFF}.Time()`. -/
def maxTime : Nat :=
  SFID.Time ⟨255, 255, 255, 255, 255, 255, 0, 0, 0, 0, 0, 0, 0, 0, 0, 0⟩

/-- `MaxTime()`. -/
def MaxTime : Nat := maxTime

/-- `const MaxNonce = 0xFFFFFFFFFF`. -/
def MaxNonce : Nat := 0xFFFFFFFFFF

/-- `const maxSN = (uint32(1) << 24) - 1`. -/
def maxSN : Nat := (1 <<< 24) - 1

/-- `SetTime`: range-checks against `maxTime`, then writes bytes 0-5. -/
def SFID.SetTime (id : SFID) (ms : Nat) : Option Err × SFID :=
  if ms > maxTime then (some .bigTime, id)
  else
    (none,
      { id with
        b0 := (ms >>> 40) % 256
        b1 := (ms >>> 32) % 256
        b2 := (ms >>> 24) % 256
        b3 := (ms >>> 16) % 256
        b4 := (ms >>> 8) % 256
        b5 := ms % 256 })

/-- `SetNode`: writes bytes 6-7; a `uint16` argument, no error. -/
def SFID.SetNode (id : SFID) (node : Nat) : SFID :=
  { id with
    b6 := (node >>> 8) % 256
    b7 := node % 256 }

/-- `SetNonce`: range-checks against `MaxNonce`, then writes bytes 8-12. -/
def SFID.SetNonce (id : SFID) (nonce : Nat) : Option Err × SFID :=
  if nonce > MaxNonce then (some .bigNonce, id)
  else
    (none,
      { id with
        b8 := (nonce >>> 32) % 256
        b9 := (nonce >>> 24) % 256
        b10 := (nonce >>> 16) % 256
        b11 := (nonce >>> 8) % 256
        b12 := nonce % 256 })

/-- `SetSN`: range-checks against `maxSN`, then writes bytes 13-15. -/
def SFID.SetSN (id : SFID) (sn : Nat) : Option Err × SFID :=
  if sn > maxSN then (some .bigSN, id)
  else
    (none,
      { id with
        b13 := (sn >>> 16) % 256
        b14 := (sn >>> 8) % 256
        b15 := sn % 256 })

/-- `bytes.Compare` on byte slices: lexicographic, -1 / 0 / 1. -/
def listCompare : List Nat → List Nat → Int
  | [], [] => 0
  | [], _ :: _ => -1
  | _ :: _, [] => 1
  | a :: xs, b :: ys =>
    if a < b then -1 else if b < a then 1 else listCompare xs ys

/-- `Compare`: `bytes.Compare(id[:], other[:])`. -/
def SFID.Compare (id other : SFID) : Int :=
  listCompare id.bytes other.bytes

/-- The dynamic type of the value handed to `Scan`: Go's `interface{}`
restricted to the cases the switch distinguishes. -/
inductive ScanSrc where
  | snull
  | sstring (s : List Nat)
  | sbytes (b : List Nat)
  | sother
  deriving DecidableEq

/-- `Scan`: `nil` is accepted unchanged, a string goes through
`UnmarshalText`, a byte slice through `UnmarshalBinary`, anything else is
`ErrScanValue`. -/
def SFID.Scan (id : SFID) (src : ScanSrc) : Option Err × SFID :=
  match src with
  | .snull => (none, id)
  | .sstring s => id.UnmarshalText s
  | .sbytes b => id.UnmarshalBinary b
  | .sother => (some .scanValue, id)

/-- `const SNMask = 0xFFFFFF`. -/
def SNMask : Nat := 0xFFFFFF

/-- The mutable generator state guarded by the mutex. -/
structure Flake where
  sn : Nat
  node : Nat
  nonce : Nat
  tms : Nat
  deriving DecidableEq

/-- `NewSnowflakePro`: rejects a nonce above `MaxNonce`, otherwise starts
with zero sequence number and timestamp. -/
def NewSnowflakePro (nodeid : Nat) (nonce : Nat) : Except Err Flake :=
  if nonce > MaxNonce then .error .bigNonce
  else .ok { sn := 0, node := nodeid, nonce := nonce, tms := 0 }

/-- The critical section of `Next`: the update of the `(sn, tms)` state
under the mutex.  When the wall clock has not advanced past the recorded
timestamp the sequence number is incremented with 24-bit wraparound, and a
wrap to zero advances the internal timestamp by one millisecond (the
busy-wait that then blocks until the wall clock catches up only sleeps and
changes no state). -/
def Flake.step (s : Flake) (now : Nat) : Flake :=
  if now ≤ s.tms then
    let sn := (s.sn + 1) &&& SNMask
    if sn = 0 then { s with sn := sn, tms := s.tms + 1 }
    else { s with sn := sn }
  else { s with sn := 0, tms := now }

/-- The identifier populated by `Next`: the literal sequence of setter
calls `SetNode`, `SetNonce`, `SetTime`, `SetSN` on a zero identifier, with
every returned error discarded exactly as in the source. -/
def buildSFID (node nonce tms sn : Nat) : SFID :=
  (SFID.SetSN
    (SFID.SetTime
      (SFID.SetNonce (SFID.SetNode zeroSFID node) nonce).2 tms).2 sn).2

/-- `Next`: one call of the generator at wall-clock millisecond `now`.
Returns the state after the call together with the emitted identifier. -/
def Flake.Next (s : Flake) (now : Nat) : Flake × SFID :=
  let s' := s.step now
  (s', buildSFID s.node s.nonce s'.tms s'.sn)

/-- The identifiers emitted by successive non-overlapping `Next` calls,
one call per entry of `nows` (the wall-clock read of each call). -/
def runNext (s : Flake) : List Nat → List SFID
  | [] => []
  | now :: rest => (s.Next now).2 :: runNext (s.Next now).1 rest

/-- The generator state after the same sequence of calls. -/
def runEnd (s : Flake) : List Nat → Flake
  | [] => s
  | now :: rest => runEnd (s.Next now).1 rest

/-- Value of a digit string in base `B`, most significant digit first.
Used to state numeric comparison of identifiers. -/
def baseVal (B : Nat) : List Nat → Nat
  | [] => 0
  | x :: xs => x * B ^ xs.length + baseVal B xs

/-- Modelled from the spec: the identifier as an unsigned big-endian
128-bit number. -/
def bigEndianValue (id : SFID) : Nat := baseVal 256 id.bytes

/-- Three-way comparison of numbers as -1 / 0 / 1, the comparison `Compare`
is claimed to implement numerically. -/
def cmpInt (m n : Nat) : Int := if m < n then -1 else if n < m then 1 else 0

/-! ### Arithmetic toolbox -/

theorem lor_shl_add (s x y : Nat) (hy : y < 2 ^ s) :
    (x <<< s) ||| y = x * 2 ^ s + y := by
  apply Nat.eq_of_testBit_eq
  intro i
  rw [Nat.testBit_lor, Nat.testBit_shiftLeft]
  rcases Nat.lt_or_ge i s with h | h
  · have hd : (decide (i ≥ s)) = false := by
      simp only [ge_iff_le, decide_eq_false_iff_not, Nat.not_le]
      omega
    rw [hd, Bool.false_and, Bool.false_or]
    rw [Nat.testBit_to_div_mod, Nat.testBit_to_div_mod]
    have key : (x * 2 ^ s + y) / 2 ^ i % 2 = y / 2 ^ i % 2 := by
      have hs : (2 : Nat) ^ s = 2 ^ (s - i) * 2 ^ i := by
        rw [← pow_add]
        congr 1
        omega
      rw [hs, ← Nat.mul_assoc, Nat.add_comm,
        Nat.add_mul_div_right _ _ (Nat.two_pow_pos i)]
      have hsi : (2 : Nat) ^ (s - i) = 2 ^ (s - i - 1) * 2 := by
        rw [← pow_succ]
        congr 1
        omega
      rw [hsi, ← Nat.mul_assoc]
      exact Nat.add_mul_mod_self_right _ _ _
    rw [key]
  · have hd : (decide (i ≥ s)) = true := by
      simp only [ge_iff_le, decide_eq_true_eq]
      omega
    rw [hd, Bool.true_and]
    have hyt : y.testBit i = false :=
      Nat.testBit_lt_two_pow
        (lt_of_lt_of_le hy (Nat.pow_le_pow_right (by norm_num) h))
    rw [hyt, Bool.or_false]
    rw [Nat.testBit_to_div_mod, Nat.testBit_to_div_mod]
    have key : (x * 2 ^ s + y) / 2 ^ i = x / 2 ^ (i - s) := by
      have hi : (2 : Nat) ^ i = 2 ^ s * 2 ^ (i - s) := by
        rw [← pow_add]
        congr 1
        omega
      rw [hi, ← Nat.div_div_eq_div_mul]
      congr 1
      rw [Nat.add_comm, Nat.mul_comm,
        Nat.add_mul_div_left _ _ (Nat.two_pow_pos s), Nat.div_eq_of_lt hy,
        Nat.zero_add]
    rw [key]

theorem lor_add_shl (s x y : Nat) (hy : y < 2 ^ s) :
    y ||| (x <<< s) = x * 2 ^ s + y := by
  rw [Nat.lor_comm]
  exact lor_shl_add s x y hy

theorem and_SNMask_eq_mod (x : Nat) : x &&& SNMask = x % 16777216 := by
  have h : SNMask = 2 ^ 24 - 1 := by norm_num [SNMask]
  have h2 : (16777216 : Nat) = 2 ^ 24 := by norm_num
  rw [h, h2, Nat.and_pow_two_sub_one_eq_mod]

theorem maxTime_eq : maxTime = 2 ^ 48 - 1 := by decide

theorem maxSN_eq : maxSN = 2 ^ 24 - 1 := by decide

/-! ### Field recombination: the getters as arithmetic -/

theorem Time_val (id : SFID) (h1 : id.b1 < 256) (h2 : id.b2 < 256)
    (h3 : id.b3 < 256) (h4 : id.b4 < 256) (h5 : id.b5 < 256) :
    id.Time = id.b0 * 2 ^ 40 + id.b1 * 2 ^ 32 + id.b2 * 2 ^ 24 +
      id.b3 * 2 ^ 16 + id.b4 * 2 ^ 8 + id.b5 := by
  unfold SFID.Time
  rw [lor_add_shl 8 id.b4 id.b5 (by omega)]
  rw [lor_add_shl 16 id.b3 _ (by omega)]
  rw [lor_add_shl 24 id.b2 _ (by omega)]
  rw [lor_add_shl 32 id.b1 _ (by omega)]
  rw [lor_add_shl 40 id.b0 _ (by omega)]
  omega

theorem Node_val (id : SFID) (h7 : id.b7 < 256) :
    id.Node = id.b6 * 2 ^ 8 + id.b7 := by
  unfold SFID.Node
  rw [lor_shl_add 8 id.b6 id.b7 (by omega)]

theorem mul_pow_lor_add (s x y : Nat) (hy : y < 2 ^ s) :
    (x * 2 ^ s) ||| y = x * 2 ^ s + y := by
  have h := lor_shl_add s x y hy
  rwa [Nat.shiftLeft_eq] at h

theorem Nonce_val (id : SFID) (h9 : id.b9 < 256) (h10 : id.b10 < 256)
    (h11 : id.b11 < 256) (h12 : id.b12 < 256) :
    id.Nonce = id.b8 * 2 ^ 32 + id.b9 * 2 ^ 24 + id.b10 * 2 ^ 16 +
      id.b11 * 2 ^ 8 + id.b12 := by
  unfold SFID.Nonce
  simp only [Nat.shiftLeft_eq]
  rw [mul_pow_lor_add 32 id.b8 _ (by omega)]
  rw [show id.b8 * 2 ^ 32 + id.b9 * 2 ^ 24 = (id.b8 * 2 ^ 8 + id.b9) * 2 ^ 24 by ring]
  rw [mul_pow_lor_add 24 _ _ (by omega)]
  rw [show (id.b8 * 2 ^ 8 + id.b9) * 2 ^ 24 + id.b10 * 2 ^ 16 =
    ((id.b8 * 2 ^ 8 + id.b9) * 2 ^ 8 + id.b10) * 2 ^ 16 by ring]
  rw [mul_pow_lor_add 16 _ _ (by omega)]
  rw [show ((id.b8 * 2 ^ 8 + id.b9) * 2 ^ 8 + id.b10) * 2 ^ 16 + id.b11 * 2 ^ 8 =
    (((id.b8 * 2 ^ 8 + id.b9) * 2 ^ 8 + id.b10) * 2 ^ 8 + id.b11) * 2 ^ 8 by ring]
  rw [mul_pow_lor_add 8 _ _ (by omega)]

theorem SN_val (id : SFID) (h14 : id.b14 < 256) (h15 : id.b15 < 256) :
    id.SN = id.b13 * 2 ^ 16 + id.b14 * 2 ^ 8 + id.b15 := by
  unfold SFID.SN
  simp only [Nat.shiftLeft_eq]
  rw [mul_pow_lor_add 16 id.b13 _ (by omega)]
  rw [show id.b13 * 2 ^ 16 + id.b14 * 2 ^ 8 = (id.b13 * 2 ^ 8 + id.b14) * 2 ^ 8 by ring]
  rw [mul_pow_lor_add 8 _ _ (by omega)]

/-! ### C8: field isolation of the setters -/

/-- C8: each field setter writes only its own byte range: after `SetTime`
the values of `Node()`, `Nonce()` and `SN()` are unchanged, and
symmetrically for `SetNode`, `SetNonce` and `SetSN` with respect to the
other three getters.  This holds unconditionally, hence in particular for
every in-range argument. -/
theorem c8_setter_frame (id : SFID) (ms node nonce sn : Nat) :
    ((id.SetTime ms).2.Node = id.Node ∧ (id.SetTime ms).2.Nonce = id.Nonce ∧
      (id.SetTime ms).2.SN = id.SN) ∧
    ((id.SetNode node).Time = id.Time ∧ (id.SetNode node).Nonce = id.Nonce ∧
      (id.SetNode node).SN = id.SN) ∧
    ((id.SetNonce nonce).2.Time = id.Time ∧ (id.SetNonce nonce).2.Node = id.Node ∧
      (id.SetNonce nonce).2.SN = id.SN) ∧
    ((id.SetSN sn).2.Time = id.Time ∧ (id.SetSN sn).2.Node = id.Node ∧
      (id.SetSN sn).2.Nonce = id.Nonce) := by
  unfold SFID.SetTime SFID.SetNode SFID.SetNonce SFID.SetSN
    SFID.Time SFID.Node SFID.Nonce SFID.SN
  split_ifs <;> simp

/-! ### C7: range checks of the setters and the constructor -/

/-- C7: `SetTime` fails iff `ms > 2^48-1`, `SetNonce` fails iff
`nonce > 2^40-1`, `SetSN` fails iff `sn > 2^24-1`, `NewSnowflakePro` fails
iff `nonce > 2^40-1`, each succeeding at the maximum, and `SetNode` accepts
every 16-bit value with no error, storing it. -/
theorem c7_range_checks (id : SFID) (ms nonce sn nodeid node2 : Nat) :
    ((id.SetTime ms).1 = none ↔ ms ≤ 2 ^ 48 - 1) ∧
    ((id.SetTime ms).1 = some .bigTime ↔ 2 ^ 48 - 1 < ms) ∧
    ((id.SetNonce nonce).1 = none ↔ nonce ≤ 2 ^ 40 - 1) ∧
    ((id.SetNonce nonce).1 = some .bigNonce ↔ 2 ^ 40 - 1 < nonce) ∧
    ((id.SetSN sn).1 = none ↔ sn ≤ 2 ^ 24 - 1) ∧
    ((id.SetSN sn).1 = some .bigSN ↔ 2 ^ 24 - 1 < sn) ∧
    ((NewSnowflakePro nodeid nonce).isOk = true ↔ nonce ≤ 2 ^ 40 - 1) ∧
    (NewSnowflakePro nodeid nonce = .error .bigNonce ↔ 2 ^ 40 - 1 < nonce) ∧
    (node2 < 2 ^ 16 → (id.SetNode node2).Node = node2) := by
  have hmax : maxTime = 2 ^ 48 - 1 := maxTime_eq
  have hnon : MaxNonce = 2 ^ 40 - 1 := by norm_num [MaxNonce]
  have hsn : maxSN = 2 ^ 24 - 1 := maxSN_eq
  refine ⟨?_, ?_, ?_, ?_, ?_, ?_, ?_, ?_, ?_⟩
  · unfold SFID.SetTime
    split_ifs with h <;> simp <;> omega
  · unfold SFID.SetTime
    split_ifs with h <;> simp <;> omega
  · unfold SFID.SetNonce
    split_ifs with h <;> simp <;> omega
  · unfold SFID.SetNonce
    split_ifs with h <;> simp <;> omega
  · unfold SFID.SetSN
    split_ifs with h <;> simp <;> omega
  · unfold SFID.SetSN
    split_ifs with h <;> simp <;> omega
  · unfold NewSnowflakePro
    split_ifs with h <;> simp [Except.isOk, Except.toBool] <;> omega
  · unfold NewSnowflakePro
    split_ifs with h <;> simp <;> omega
  · intro hlt
    rw [Node_val _ (by simp [SFID.SetNode]; omega)]
    simp only [SFID.SetNode]
    rw [Nat.shiftRight_eq_div_pow]
    omega

/-- C7 witness at a concrete instance. -/
theorem c7_range_checks_witness :
    ((zeroSFID.SetTime 3).1 = none ↔ (3 : Nat) ≤ 2 ^ 48 - 1) ∧
    ((zeroSFID.SetTime 3).1 = some .bigTime ↔ 2 ^ 48 - 1 < 3) ∧
    ((zeroSFID.SetNonce 4).1 = none ↔ (4 : Nat) ≤ 2 ^ 40 - 1) ∧
    ((zeroSFID.SetNonce 4).1 = some .bigNonce ↔ 2 ^ 40 - 1 < 4) ∧
    ((zeroSFID.SetSN 5).1 = none ↔ (5 : Nat) ≤ 2 ^ 24 - 1) ∧
    ((zeroSFID.SetSN 5).1 = some .bigSN ↔ 2 ^ 24 - 1 < 5) ∧
    ((NewSnowflakePro 6 4).isOk = true ↔ (4 : Nat) ≤ 2 ^ 40 - 1) ∧
    (NewSnowflakePro 6 4 = .error .bigNonce ↔ 2 ^ 40 - 1 < 4) ∧
    (7 < 2 ^ 16 → (zeroSFID.SetNode 7).Node = 7) :=
  c7_range_checks zeroSFID 3 4 5 6 7

/-! ### C9: the scan conversion (corrected: nil is accepted) -/

/-- C9 counterexample: the nil source is neither a string nor a byte
slice, yet `Scan` accepts it without the unsupported-source error. -/
theorem c9_scan_nil_counterexample :
    (SFID.Scan zeroSFID ScanSrc.snull).1 ≠ some Err.scanValue ∧
    (SFID.Scan zeroSFID ScanSrc.snull).1 = none := by
  exact ⟨by decide, rfl⟩

/-- C9 (amended): every source other than nil, a string, or a byte slice
draws the unsupported-source error; nil leaves the identifier unchanged
with no error; strings are decoded as text and byte slices as binary. -/
theorem c9_scan_dispatch (id : SFID) :
    (id.Scan .sother).1 = some .scanValue ∧
    id.Scan .snull = (none, id) ∧
    (∀ s, id.Scan (.sstring s) = id.UnmarshalText s) ∧
    (∀ b, id.Scan (.sbytes b) = id.UnmarshalBinary b) :=
  ⟨rfl, rfl, fun _ => rfl, fun _ => rfl⟩

/-! ### C10: failing operations leave the destination untouched -/

/-- C10: whenever `parse` (hence `Parse`, `ParseStrict`, `UnmarshalText`
and `Scan` of a string), `UnmarshalBinary`, `SetTime`, `SetNonce` or
`SetSN` returns an error, the destination identifier is returned exactly
as it was. -/
theorem c10_error_atomicity :
    (∀ v strict id e, (parse v strict id).1 = some e → (parse v strict id).2 = id) ∧
    (∀ id data e, (SFID.UnmarshalBinary id data).1 = some e →
      (SFID.UnmarshalBinary id data).2 = id) ∧
    (∀ id ms e, (SFID.SetTime id ms).1 = some e → (SFID.SetTime id ms).2 = id) ∧
    (∀ id nonce e, (SFID.SetNonce id nonce).1 = some e →
      (SFID.SetNonce id nonce).2 = id) ∧
    (∀ id sn e, (SFID.SetSN id sn).1 = some e → (SFID.SetSN id sn).2 = id) ∧
    (∀ id src e, (SFID.Scan id src).1 = some e → (SFID.Scan id src).2 = id) := by
  have hp : ∀ v strict id e, (parse v strict id).1 = some e →
      (parse v strict id).2 = id := by
    intro v strict id e h
    unfold parse at h ⊢
    split_ifs at h ⊢ <;> simp_all
  have hb : ∀ id data e, (SFID.UnmarshalBinary id data).1 = some e →
      (SFID.UnmarshalBinary id data).2 = id := by
    intro id data e h
    unfold SFID.UnmarshalBinary at h ⊢
    split_ifs at h ⊢ <;> simp_all
  refine ⟨hp, hb, ?_, ?_, ?_, ?_⟩
  · intro id ms e h
    unfold SFID.SetTime at h ⊢
    split_ifs at h ⊢ <;> simp_all
  · intro id nonce e h
    unfold SFID.SetNonce at h ⊢
    split_ifs at h ⊢ <;> simp_all
  · intro id sn e h
    unfold SFID.SetSN at h ⊢
    split_ifs at h ⊢ <;> simp_all
  · intro id src e h
    cases src with
    | snull => simp [SFID.Scan] at h
    | sstring s => exact hp s false id e h
    | sbytes b => exact hb id b e h
    | sother => rfl

/-- C10 witness at concrete failing inputs. -/
theorem c10_error_atomicity_witness :
    (parse [] false zeroSFID).2 = zeroSFID ∧
    (SFID.UnmarshalBinary zeroSFID []).2 = zeroSFID ∧
    (SFID.SetTime zeroSFID (2 ^ 48)).2 = zeroSFID ∧
    (SFID.SetNonce zeroSFID (2 ^ 40)).2 = zeroSFID ∧
    (SFID.SetSN zeroSFID (2 ^ 24)).2 = zeroSFID ∧
    (SFID.Scan zeroSFID .sother).2 = zeroSFID :=
  ⟨c10_error_atomicity.1 [] false zeroSFID .dataSize (by decide),
   c10_error_atomicity.2.1 zeroSFID [] .dataSize (by decide),
   c10_error_atomicity.2.2.1 zeroSFID (2 ^ 48) .bigTime (by decide),
   c10_error_atomicity.2.2.2.1 zeroSFID (2 ^ 40) .bigNonce (by decide),
   c10_error_atomicity.2.2.2.2.1 zeroSFID (2 ^ 24) .bigSN (by decide),
   c10_error_atomicity.2.2.2.2.2 zeroSFID .sother .scanValue (by decide)⟩

/-! ### C6: error taxonomy of non-strict Parse -/

/-- C6: non-strict `Parse` fails with the size error iff the length is not
26; fails with the overflow error iff the length is 26 and the first
character exceeds `'7'`; succeeds otherwise; and never raises the
invalid-character error.  `Parse` of `"8"` followed by 25 valid characters
fails with the overflow error. -/
theorem c6_parse_taxonomy (v : List Nat) :
    ((Parse v).1 = some .dataSize ↔ v.length ≠ 26) ∧
    ((Parse v).1 = some .overflow ↔ (v.length = 26 ∧ 55 < v.getD 0 0)) ∧
    ((Parse v).1 = none ↔ (v.length = 26 ∧ v.getD 0 0 ≤ 55)) ∧
    (Parse v).1 ≠ some .invalidCharacters ∧
    (Parse (56 :: List.replicate 25 48)).1 = some .overflow := by
  refine ⟨?_, ?_, ?_, ?_, by decide⟩ <;>
  · unfold Parse parse
    simp only [EncodedSize]
    split_ifs <;> simp_all <;> omega

/-! ### C4: the strict invalid-character check (corrected: the decode
table also accepts lowercase letters) -/

/-- The byte values the decode table accepts: the canonical alphabet
together with the lowercase forms of its letters (the table maps both
cases of each letter to the same value and I, L, O, U are excluded in
both cases). -/
def relaxedAlphabet : List Nat :=
  Encoding ++
  [97, 98, 99, 100, 101, 102, 103, 104, 106, 107, 109, 110,
   112, 113, 114, 115, 116, 118, 119, 120, 121, 122]

set_option maxRecDepth 8000 in
/-- The decode table returns the sentinel exactly on the bytes outside the
relaxed (case-insensitive) alphabet. -/
theorem dec_sentinel_iff : ∀ c < 256, (dec c = 255 ↔ c ∉ relaxedAlphabet) := by
  decide

set_option maxRecDepth 4000 in
/-- `parse` on an input of exactly 26 characters, with the indexing
resolved: the length check passes and the three remaining stages appear
explicitly. -/
theorem parse_explicit (v0 v1 v2 v3 v4 v5 v6 v7 v8 v9 v10 v11 v12 v13 v14 v15 v16 v17 v18 v19 v20 v21 v22 v23 v24 v25 : Nat) (strict : Bool) (id : SFID) :
    parse [v0, v1, v2, v3, v4, v5, v6, v7, v8, v9, v10, v11, v12, v13, v14, v15, v16, v17, v18, v19, v20, v21, v22, v23, v24, v25] strict id =
      if strict ∧
        (dec v0 = 255 ∨
        dec v1 = 255 ∨
        dec v2 = 255 ∨
        dec v3 = 255 ∨
        dec v4 = 255 ∨
        dec v5 = 255 ∨
        dec v6 = 255 ∨
        dec v7 = 255 ∨
        dec v8 = 255 ∨
        dec v9 = 255 ∨
        dec v10 = 255 ∨
        dec v11 = 255 ∨
        dec v12 = 255 ∨
        dec v13 = 255 ∨
        dec v14 = 255 ∨
        dec v15 = 255 ∨
        dec v16 = 255 ∨
        dec v17 = 255 ∨
        dec v18 = 255 ∨
        dec v19 = 255 ∨
        dec v20 = 255 ∨
        dec v21 = 255 ∨
        dec v22 = 255 ∨
        dec v23 = 255 ∨
        dec v24 = 255 ∨
        dec v25 = 255) then (some .invalidCharacters, id)
      else if v0 > 55 then (some .overflow, id)
      else
        (none,
          { b0 := bshl (dec v0) 5 ||| dec v1
            b1 := bshl (dec v2) 3 ||| (dec v3 >>> 2)
            b2 := bshl (dec v3) 6 ||| bshl (dec v4) 1 ||| (dec v5 >>> 4)
            b3 := bshl (dec v5) 4 ||| (dec v6 >>> 1)
            b4 := bshl (dec v6) 7 ||| bshl (dec v7) 2 ||| (dec v8 >>> 3)
            b5 := bshl (dec v8) 5 ||| dec v9
            b6 := bshl (dec v10) 3 ||| (dec v11 >>> 2)
            b7 := bshl (dec v11) 6 ||| bshl (dec v12) 1 ||| (dec v13 >>> 4)
            b8 := bshl (dec v13) 4 ||| (dec v14 >>> 1)
            b9 := bshl (dec v14) 7 ||| bshl (dec v15) 2 ||| (dec v16 >>> 3)
            b10 := bshl (dec v16) 5 ||| dec v17
            b11 := bshl (dec v18) 3 ||| (dec v19 >>> 2)
            b12 := bshl (dec v19) 6 ||| bshl (dec v20) 1 ||| (dec v21 >>> 4)
            b13 := bshl (dec v21) 4 ||| (dec v22 >>> 1)
            b14 := bshl (dec v22) 7 ||| bshl (dec v23) 2 ||| (dec v24 >>> 3)
            b15 := bshl (dec v24) 5 ||| dec v25 }) := by
  rfl

set_option maxRecDepth 4000 in
/-- C4 counterexample: a 26-character input ending in a lowercase letter.
The lowercase letter is outside the case-sensitive alphabet, yet
`ParseStrict` succeeds, because the decode table maps lowercase letters to
valid values. -/
theorem c4_lowercase_counterexample :
    (List.replicate 25 48 ++ [97]).length = 26 ∧
    97 ∉ Encoding ∧
    (List.replicate 25 48 ++ [97]).getD 0 0 ≤ 55 ∧
    (ParseStrict (List.replicate 25 48 ++ [97])).1 ≠ some Err.invalidCharacters ∧
    (ParseStrict (List.replicate 25 48 ++ [97])).1 = none := by
  decide

/-- C4 (amended): for a 26-character input whose first character does not
exceed `'7'` and whose characters are bytes, `ParseStrict` fails with the
invalid-character error iff at least one character lies outside the
alphabet extended with the lowercase letter forms: the accepted set is
effectively case-insensitive, so a lowercase letter alone does not make
the strict parse fail. -/
theorem c4_strict_invalid_iff (c0 c1 c2 c3 c4 c5 c6 c7 c8 c9 c10 c11 c12 c13 c14 c15 c16 c17 c18 c19 c20 c21 c22 c23 c24 c25 : Nat)
    (hfirst : c0 ≤ 55) (hb : c0 < 256 ∧ c1 < 256 ∧ c2 < 256 ∧ c3 < 256 ∧ c4 < 256 ∧ c5 < 256 ∧ c6 < 256 ∧ c7 < 256 ∧ c8 < 256 ∧ c9 < 256 ∧ c10 < 256 ∧ c11 < 256 ∧ c12 < 256 ∧ c13 < 256 ∧ c14 < 256 ∧ c15 < 256 ∧ c16 < 256 ∧ c17 < 256 ∧ c18 < 256 ∧ c19 < 256 ∧ c20 < 256 ∧ c21 < 256 ∧ c22 < 256 ∧ c23 < 256 ∧ c24 < 256 ∧ c25 < 256) :
    ((ParseStrict [c0, c1, c2, c3, c4, c5, c6, c7, c8, c9, c10, c11, c12, c13, c14, c15, c16, c17, c18, c19, c20, c21, c22, c23, c24, c25]).1 = some Err.invalidCharacters ↔
      (c0 ∉ relaxedAlphabet ∨
      c1 ∉ relaxedAlphabet ∨
      c2 ∉ relaxedAlphabet ∨
      c3 ∉ relaxedAlphabet ∨
      c4 ∉ relaxedAlphabet ∨
      c5 ∉ relaxedAlphabet ∨
      c6 ∉ relaxedAlphabet ∨
      c7 ∉ relaxedAlphabet ∨
      c8 ∉ relaxedAlphabet ∨
      c9 ∉ relaxedAlphabet ∨
      c10 ∉ relaxedAlphabet ∨
      c11 ∉ relaxedAlphabet ∨
      c12 ∉ relaxedAlphabet ∨
      c13 ∉ relaxedAlphabet ∨
      c14 ∉ relaxedAlphabet ∨
      c15 ∉ relaxedAlphabet ∨
      c16 ∉ relaxedAlphabet ∨
      c17 ∉ relaxedAlphabet ∨
      c18 ∉ relaxedAlphabet ∨
      c19 ∉ relaxedAlphabet ∨
      c20 ∉ relaxedAlphabet ∨
      c21 ∉ relaxedAlphabet ∨
      c22 ∉ relaxedAlphabet ∨
      c23 ∉ relaxedAlphabet ∨
      c24 ∉ relaxedAlphabet ∨
      c25 ∉ relaxedAlphabet)) := by
  obtain ⟨h0, h1, h2, h3, h4, h5, h6, h7, h8, h9, h10, h11, h12, h13, h14, h15, h16, h17, h18, h19, h20, h21, h22, h23, h24, h25⟩ := hb
  have e0 : (c0 ∉ relaxedAlphabet) ↔ dec c0 = 255 := (dec_sentinel_iff c0 h0).symm
  have e1 : (c1 ∉ relaxedAlphabet) ↔ dec c1 = 255 := (dec_sentinel_iff c1 h1).symm
  have e2 : (c2 ∉ relaxedAlphabet) ↔ dec c2 = 255 := (dec_sentinel_iff c2 h2).symm
  have e3 : (c3 ∉ relaxedAlphabet) ↔ dec c3 = 255 := (dec_sentinel_iff c3 h3).symm
  have e4 : (c4 ∉ relaxedAlphabet) ↔ dec c4 = 255 := (dec_sentinel_iff c4 h4).symm
  have e5 : (c5 ∉ relaxedAlphabet) ↔ dec c5 = 255 := (dec_sentinel_iff c5 h5).symm
  have e6 : (c6 ∉ relaxedAlphabet) ↔ dec c6 = 255 := (dec_sentinel_iff c6 h6).symm
  have e7 : (c7 ∉ relaxedAlphabet) ↔ dec c7 = 255 := (dec_sentinel_iff c7 h7).symm
  have e8 : (c8 ∉ relaxedAlphabet) ↔ dec c8 = 255 := (dec_sentinel_iff c8 h8).symm
  have e9 : (c9 ∉ relaxedAlphabet) ↔ dec c9 = 255 := (dec_sentinel_iff c9 h9).symm
  have e10 : (c10 ∉ relaxedAlphabet) ↔ dec c10 = 255 := (dec_sentinel_iff c10 h10).symm
  have e11 : (c11 ∉ relaxedAlphabet) ↔ dec c11 = 255 := (dec_sentinel_iff c11 h11).symm
  have e12 : (c12 ∉ relaxedAlphabet) ↔ dec c12 = 255 := (dec_sentinel_iff c12 h12).symm
  have e13 : (c13 ∉ relaxedAlphabet) ↔ dec c13 = 255 := (dec_sentinel_iff c13 h13).symm
  have e14 : (c14 ∉ relaxedAlphabet) ↔ dec c14 = 255 := (dec_sentinel_iff c14 h14).symm
  have e15 : (c15 ∉ relaxedAlphabet) ↔ dec c15 = 255 := (dec_sentinel_iff c15 h15).symm
  have e16 : (c16 ∉ relaxedAlphabet) ↔ dec c16 = 255 := (dec_sentinel_iff c16 h16).symm
  have e17 : (c17 ∉ relaxedAlphabet) ↔ dec c17 = 255 := (dec_sentinel_iff c17 h17).symm
  have e18 : (c18 ∉ relaxedAlphabet) ↔ dec c18 = 255 := (dec_sentinel_iff c18 h18).symm
  have e19 : (c19 ∉ relaxedAlphabet) ↔ dec c19 = 255 := (dec_sentinel_iff c19 h19).symm
  have e20 : (c20 ∉ relaxedAlphabet) ↔ dec c20 = 255 := (dec_sentinel_iff c20 h20).symm
  have e21 : (c21 ∉ relaxedAlphabet) ↔ dec c21 = 255 := (dec_sentinel_iff c21 h21).symm
  have e22 : (c22 ∉ relaxedAlphabet) ↔ dec c22 = 255 := (dec_sentinel_iff c22 h22).symm
  have e23 : (c23 ∉ relaxedAlphabet) ↔ dec c23 = 255 := (dec_sentinel_iff c23 h23).symm
  have e24 : (c24 ∉ relaxedAlphabet) ↔ dec c24 = 255 := (dec_sentinel_iff c24 h24).symm
  have e25 : (c25 ∉ relaxedAlphabet) ↔ dec c25 = 255 := (dec_sentinel_iff c25 h25).symm
  rw [e0, e1, e2, e3, e4, e5, e6, e7, e8, e9, e10, e11, e12, e13, e14, e15, e16, e17, e18, e19, e20, e21, e22, e23, e24, e25]
  unfold ParseStrict
  rw [parse_explicit]
  split_ifs with hc1 hc2
  · obtain ⟨-, hor⟩ := hc1
    exact iff_of_true rfl hor
  · omega
  · refine iff_of_false (by simp) ?_
    intro hor
    exact hc1 ⟨rfl, hor⟩

set_option maxRecDepth 4000 in
/-- C4 witness at a concrete instance: 25 zeros followed by `'!'`. -/
theorem c4_strict_invalid_iff_witness :
    ((ParseStrict [48, 48, 48, 48, 48, 48, 48, 48, 48, 48, 48, 48, 48, 48, 48, 48, 48, 48, 48, 48, 48, 48, 48, 48, 48, 33]).1 = some Err.invalidCharacters ↔
      ((48 : Nat) ∉ relaxedAlphabet ∨
      (48 : Nat) ∉ relaxedAlphabet ∨
      (48 : Nat) ∉ relaxedAlphabet ∨
      (48 : Nat) ∉ relaxedAlphabet ∨
      (48 : Nat) ∉ relaxedAlphabet ∨
      (48 : Nat) ∉ relaxedAlphabet ∨
      (48 : Nat) ∉ relaxedAlphabet ∨
      (48 : Nat) ∉ relaxedAlphabet ∨
      (48 : Nat) ∉ relaxedAlphabet ∨
      (48 : Nat) ∉ relaxedAlphabet ∨
      (48 : Nat) ∉ relaxedAlphabet ∨
      (48 : Nat) ∉ relaxedAlphabet ∨
      (48 : Nat) ∉ relaxedAlphabet ∨
      (48 : Nat) ∉ relaxedAlphabet ∨
      (48 : Nat) ∉ relaxedAlphabet ∨
      (48 : Nat) ∉ relaxedAlphabet ∨
      (48 : Nat) ∉ relaxedAlphabet ∨
      (48 : Nat) ∉ relaxedAlphabet ∨
      (48 : Nat) ∉ relaxedAlphabet ∨
      (48 : Nat) ∉ relaxedAlphabet ∨
      (48 : Nat) ∉ relaxedAlphabet ∨
      (48 : Nat) ∉ relaxedAlphabet ∨
      (48 : Nat) ∉ relaxedAlphabet ∨
      (48 : Nat) ∉ relaxedAlphabet ∨
      (48 : Nat) ∉ relaxedAlphabet ∨
      (33 : Nat) ∉ relaxedAlphabet)) :=
  c4_strict_invalid_iff 48 48 48 48 48 48 48 48 48 48 48 48 48 48 48 48 48 48 48 48 48 48 48 48 48 33 (by norm_num) (by norm_num [relaxedAlphabet, Encoding])

/-! ### The identifier populated by the generator -/

theorem buildSFID_eq (node nonce tms sn : Nat) (hnc : nonce ≤ MaxNonce)
    (ht : tms ≤ maxTime) (hs : sn ≤ maxSN) :
    buildSFID node nonce tms sn =
      ⟨(tms >>> 40) % 256, (tms >>> 32) % 256, (tms >>> 24) % 256,
       (tms >>> 16) % 256, (tms >>> 8) % 256, tms % 256,
       (node >>> 8) % 256, node % 256,
       (nonce >>> 32) % 256, (nonce >>> 24) % 256, (nonce >>> 16) % 256,
       (nonce >>> 8) % 256, nonce % 256,
       (sn >>> 16) % 256, (sn >>> 8) % 256, sn % 256⟩ := by
  unfold buildSFID SFID.SetSN SFID.SetTime SFID.SetNonce SFID.SetNode zeroSFID
  split_ifs <;> first | rfl | (exfalso; omega)

theorem buildSFID_spec (node nonce tms sn : Nat) (hn : node < 2 ^ 16)
    (hnc : nonce ≤ MaxNonce) (ht : tms ≤ maxTime) (hs : sn ≤ maxSN) :
    (buildSFID node nonce tms sn).Time = tms ∧
    (buildSFID node nonce tms sn).Node = node ∧
    (buildSFID node nonce tms sn).Nonce = nonce ∧
    (buildSFID node nonce tms sn).SN = sn ∧
    Wf (buildSFID node nonce tms sn) ∧
    bigEndianValue (buildSFID node nonce tms sn) =
      tms * 2 ^ 80 + node * 2 ^ 64 + nonce * 2 ^ 24 + sn := by
  have hmax : maxTime = 2 ^ 48 - 1 := maxTime_eq
  have hnon : MaxNonce = 2 ^ 40 - 1 := by norm_num [MaxNonce]
  have hsq : maxSN = 2 ^ 24 - 1 := maxSN_eq
  rw [buildSFID_eq node nonce tms sn hnc ht hs]
  simp only [Nat.shiftRight_eq_div_pow]
  refine ⟨?_, ?_, ?_, ?_, ?_, ?_⟩
  · rw [Time_val _ (by dsimp only; omega) (by dsimp only; omega)
      (by dsimp only; omega) (by dsimp only; omega) (by dsimp only; omega)]
    dsimp only
    omega
  · rw [Node_val _ (by dsimp only; omega)]
    dsimp only
    omega
  · rw [Nonce_val _ (by dsimp only; omega) (by dsimp only; omega)
      (by dsimp only; omega) (by dsimp only; omega)]
    dsimp only
    omega
  · rw [SN_val _ (by dsimp only; omega) (by dsimp only; omega)]
    dsimp only
    omega
  · unfold Wf
    dsimp only
    refine ⟨?_, ?_, ?_, ?_, ?_, ?_, ?_, ?_, ?_, ?_, ?_, ?_, ?_, ?_, ?_, ?_⟩ <;> omega
  · simp only [bigEndianValue, SFID.bytes, baseVal, List.length]
    omega

/-! ### C5: sequence wraparound -/

/-- C5: starting a fresh millisecond `T` resets the state to sequence 0;
while the wall clock stays at `T`, `k ≤ 2^24-1` further calls bring the
sequence to `k`; and once all `2^24` sequence values of the millisecond
are exhausted, the next call wraps the counter to zero, advances the
internal timestamp by exactly one millisecond, and emits sequence number 0
with the advanced timestamp. -/
theorem c5_sequence_wraparound (node nonce T : Nat) (hT : T + 1 ≤ maxTime)
    (hn : node < 2 ^ 16) (hnc : nonce ≤ MaxNonce) :
    (∀ sPrev : Flake, sPrev.node = node → sPrev.nonce = nonce →
      sPrev.tms < T → (sPrev.Next T).1 = ⟨0, node, nonce, T⟩) ∧
    (∀ k, k ≤ SNMask →
      (fun s : Flake => (s.Next T).1)^[k] ⟨0, node, nonce, T⟩ =
        ⟨k, node, nonce, T⟩) ∧
    (Flake.Next ⟨SNMask, node, nonce, T⟩ T).1 = ⟨0, node, nonce, T + 1⟩ ∧
    (Flake.Next ⟨SNMask, node, nonce, T⟩ T).2.Time = T + 1 ∧
    (Flake.Next ⟨SNMask, node, nonce, T⟩ T).2.SN = 0 := by
  have hwrapSt : (Flake.Next ⟨SNMask, node, nonce, T⟩ T).1 =
      ⟨0, node, nonce, T + 1⟩ := by
    show Flake.step ⟨SNMask, node, nonce, T⟩ T = _
    unfold Flake.step
    rw [if_pos (le_refl T)]
    simp only []
    rw [if_pos (by decide)]
    simp only [show (SNMask + 1) &&& SNMask = 0 from by decide]
  have hwrapId : (Flake.Next ⟨SNMask, node, nonce, T⟩ T).2 =
      buildSFID node nonce (T + 1) 0 := by
    show buildSFID node nonce (Flake.step ⟨SNMask, node, nonce, T⟩ T).tms
      (Flake.step ⟨SNMask, node, nonce, T⟩ T).sn = _
    rw [show Flake.step ⟨SNMask, node, nonce, T⟩ T = ⟨0, node, nonce, T + 1⟩ from hwrapSt]
  obtain ⟨ht1, -, -, hsn1, -, -⟩ :=
    buildSFID_spec node nonce (T + 1) 0 hn hnc hT (by norm_num)
  refine ⟨?_, ?_, hwrapSt, ?_, ?_⟩
  · intro sPrev h1 h2 h3
    show Flake.step sPrev T = _
    unfold Flake.step
    rw [if_neg (by omega)]
    cases sPrev
    simp_all
  · intro k hk
    induction k with
    | zero => rfl
    | succ n ih =>
      rw [Function.iterate_succ_apply', ih (by omega)]
      show Flake.step ⟨n, node, nonce, T⟩ T = _
      have hm : (n + 1) &&& SNMask = n + 1 := by
        rw [and_SNMask_eq_mod]
        have : SNMask = 16777215 := rfl
        omega
      unfold Flake.step
      rw [if_pos (le_refl T)]
      simp only [hm]
      rw [if_neg (by omega)]
  · rw [hwrapId, ht1]
  · rw [hwrapId, hsn1]

/-! ### C1 and C3: the text codec, digit by digit -/

theorem and1 (x : Nat) : x &&& 1 = x % 2 :=
  Nat.and_one_is_mod x

theorem and3 (x : Nat) : x &&& 3 = x % 4 := by
  have h := Nat.and_pow_two_sub_one_eq_mod x 2
  norm_num at h
  exact h

theorem and7 (x : Nat) : x &&& 7 = x % 8 := by
  have h := Nat.and_pow_two_sub_one_eq_mod x 3
  norm_num at h
  exact h

theorem and15 (x : Nat) : x &&& 15 = x % 16 := by
  have h := Nat.and_pow_two_sub_one_eq_mod x 4
  norm_num at h
  exact h

theorem and31 (x : Nat) : x &&& 31 = x % 32 := by
  have h := Nat.and_pow_two_sub_one_eq_mod x 5
  norm_num at h
  exact h

set_option maxRecDepth 4000 in
theorem am224 : ∀ y < 256, (y &&& 224) >>> 5 = y / 32 := by
  decide

set_option maxRecDepth 4000 in
theorem am248 : ∀ y < 256, (y &&& 248) >>> 3 = y / 8 := by
  decide

set_option maxRecDepth 4000 in
theorem am192 : ∀ y < 256, (y &&& 192) >>> 6 = y / 64 := by
  decide

set_option maxRecDepth 4000 in
theorem am240 : ∀ y < 256, (y &&& 240) >>> 4 = y / 16 := by
  decide

set_option maxRecDepth 4000 in
theorem am128 : ∀ y < 256, (y &&& 128) >>> 7 = y / 128 := by
  decide

set_option maxRecDepth 4000 in
theorem am62 : ∀ y < 256, (y &&& 62) >>> 1 = y % 64 / 2 := by
  decide

set_option maxRecDepth 4000 in
theorem am124 : ∀ y < 256, (y &&& 124) >>> 2 = y % 128 / 4 := by
  decide

theorem bshl1 : ∀ a < 32, bshl a 1 = a * 2 ^ 1 := by
  decide

theorem bshl2 : ∀ a < 32, bshl a 2 = a * 2 ^ 2 := by
  decide

theorem bshl3 : ∀ a < 32, bshl a 3 = a * 2 ^ 3 := by
  decide

theorem bshl4 : ∀ a < 32, bshl a 4 = a % 16 * 2 ^ 4 := by
  decide

theorem bshl5 : ∀ a < 32, bshl a 5 = a % 8 * 2 ^ 5 := by
  decide

theorem bshl6 : ∀ a < 32, bshl a 6 = a % 4 * 2 ^ 6 := by
  decide

theorem bshl7 : ∀ a < 32, bshl a 7 = a % 2 * 2 ^ 7 := by
  decide

theorem shapeA (y : Nat) (hy : y < 256) : (y &&& 224) >>> 5 = y / 32 :=
  am224 y hy

theorem shapeB (x : Nat) : x &&& 31 = x % 32 :=
  and31 x

theorem shapeC (y : Nat) (hy : y < 256) : (y &&& 248) >>> 3 = y / 8 :=
  am248 y hy

theorem shapeD (x y : Nat) (hy : y < 256) :
    bshl (x &&& 7) 2 ||| ((y &&& 192) >>> 6) = x % 8 * 4 + y / 64 := by
  rw [and7 x, am192 y hy, bshl2 (x % 8) (by omega),
    mul_pow_lor_add 2 _ _ (by omega)]
  omega

theorem shapeE (y : Nat) (hy : y < 256) : (y &&& 62) >>> 1 = y % 64 / 2 :=
  am62 y hy

theorem shapeF (x y : Nat) (hy : y < 256) :
    bshl (x &&& 1) 4 ||| ((y &&& 240) >>> 4) = x % 2 * 16 + y / 16 := by
  rw [and1 x, am240 y hy, bshl4 (x % 2) (by omega),
    mul_pow_lor_add 4 _ _ (by omega)]
  omega

theorem shapeG (x y : Nat) (hy : y < 256) :
    bshl (x &&& 15) 1 ||| ((y &&& 128) >>> 7) = x % 16 * 2 + y / 128 := by
  rw [and15 x, am128 y hy, bshl1 (x % 16) (by omega),
    mul_pow_lor_add 1 _ _ (by omega)]
  omega

theorem shapeH (y : Nat) (hy : y < 256) : (y &&& 124) >>> 2 = y % 128 / 4 :=
  am124 y hy

theorem shapeI (x y : Nat) (hy : y < 256) :
    bshl (x &&& 3) 3 ||| ((y &&& 224) >>> 5) = x % 4 * 8 + y / 32 := by
  rw [and3 x, am224 y hy, bshl3 (x % 4) (by omega),
    mul_pow_lor_add 3 _ _ (by omega)]
  omega

theorem decE (x y : Nat) (hx : x < 32) (hy : y < 32) :
    bshl x 5 ||| y = x % 8 * 32 + y := by
  rw [bshl5 x hx, mul_pow_lor_add 5 _ _ (by omega)]
  omega

theorem decA (x y : Nat) (hx : x < 32) (hy : y < 32) :
    bshl x 3 ||| (y >>> 2) = x * 8 + y / 4 := by
  rw [bshl3 x hx, Nat.shiftRight_eq_div_pow, mul_pow_lor_add 3 _ _ (by omega)]
  omega

theorem decB (x y z : Nat) (hx : x < 32) (hy : y < 32) (hz : z < 32) :
    bshl x 6 ||| bshl y 1 ||| (z >>> 4) = x % 4 * 64 + y * 2 + z / 16 := by
  rw [bshl6 x hx, bshl1 y hy, Nat.shiftRight_eq_div_pow,
    mul_pow_lor_add 6 _ _ (by omega),
    show x % 4 * 2 ^ 6 + y * 2 ^ 1 = (x % 4 * 2 ^ 5 + y) * 2 ^ 1 by ring,
    mul_pow_lor_add 1 _ _ (by omega)]
  omega

theorem decC (x y : Nat) (hx : x < 32) (hy : y < 32) :
    bshl x 4 ||| (y >>> 1) = x % 16 * 16 + y / 2 := by
  rw [bshl4 x hx, Nat.shiftRight_eq_div_pow, mul_pow_lor_add 4 _ _ (by omega)]
  omega

theorem decD (x y z : Nat) (hx : x < 32) (hy : y < 32) (hz : z < 32) :
    bshl x 7 ||| bshl y 2 ||| (z >>> 3) = x % 2 * 128 + y * 4 + z / 8 := by
  rw [bshl7 x hx, bshl2 y hy, Nat.shiftRight_eq_div_pow,
    mul_pow_lor_add 7 _ _ (by omega),
    show x % 2 * 2 ^ 7 + y * 2 ^ 2 = (x % 2 * 2 ^ 5 + y) * 2 ^ 2 by ring,
    mul_pow_lor_add 2 _ _ (by omega)]
  omega

set_option maxRecDepth 2000 in
theorem dec_enc : ∀ j < 32, dec (encChar j) = j := by
  decide

theorem enc_le_55 : ∀ j < 8, encChar j ≤ 55 := by
  decide

set_option maxRecDepth 4000 in
theorem enc_lt_iff : ∀ x < 32, ∀ y < 32, (encChar x < encChar y ↔ x < y) := by
  decide

/-- The 26 digit values of the text encoding in arithmetic form. -/
def digitsOf (id : SFID) : List Nat :=
  [id.b0 / 32,
   id.b0 % 32,
   id.b1 / 8,
   id.b1 % 8 * 4 + id.b2 / 64,
   id.b2 % 64 / 2,
   id.b2 % 2 * 16 + id.b3 / 16,
   id.b3 % 16 * 2 + id.b4 / 128,
   id.b4 % 128 / 4,
   id.b4 % 4 * 8 + id.b5 / 32,
   id.b5 % 32,
   id.b6 / 8,
   id.b6 % 8 * 4 + id.b7 / 64,
   id.b7 % 64 / 2,
   id.b7 % 2 * 16 + id.b8 / 16,
   id.b8 % 16 * 2 + id.b9 / 128,
   id.b9 % 128 / 4,
   id.b9 % 4 * 8 + id.b10 / 32,
   id.b10 % 32,
   id.b11 / 8,
   id.b11 % 8 * 4 + id.b12 / 64,
   id.b12 % 64 / 2,
   id.b12 % 2 * 16 + id.b13 / 16,
   id.b13 % 16 * 2 + id.b14 / 128,
   id.b14 % 128 / 4,
   id.b14 % 4 * 8 + id.b15 / 32,
   id.b15 % 32]

theorem marshalText_arith (id : SFID) (h : Wf id) :
    marshalText id = (digitsOf id).map encChar := by
  obtain ⟨h0, h1, h2, h3, h4, h5, h6, h7, h8, h9, h10, h11, h12, h13, h14, h15⟩ := h
  simp only [marshalText, digitsOf, List.map_cons, List.map_nil,
    List.cons.injEq, and_true]
  exact ⟨congrArg encChar (shapeA id.b0 h0),
    congrArg encChar (shapeB id.b0),
    congrArg encChar (shapeC id.b1 h1),
    congrArg encChar (shapeD id.b1 id.b2 h2),
    congrArg encChar (shapeE id.b2 h2),
    congrArg encChar (shapeF id.b2 id.b3 h3),
    congrArg encChar (shapeG id.b3 id.b4 h4),
    congrArg encChar (shapeH id.b4 h4),
    congrArg encChar (shapeI id.b4 id.b5 h5),
    congrArg encChar (shapeB id.b5),
    congrArg encChar (shapeC id.b6 h6),
    congrArg encChar (shapeD id.b6 id.b7 h7),
    congrArg encChar (shapeE id.b7 h7),
    congrArg encChar (shapeF id.b7 id.b8 h8),
    congrArg encChar (shapeG id.b8 id.b9 h9),
    congrArg encChar (shapeH id.b9 h9),
    congrArg encChar (shapeI id.b9 id.b10 h10),
    congrArg encChar (shapeB id.b10),
    congrArg encChar (shapeC id.b11 h11),
    congrArg encChar (shapeD id.b11 id.b12 h12),
    congrArg encChar (shapeE id.b12 h12),
    congrArg encChar (shapeF id.b12 id.b13 h13),
    congrArg encChar (shapeG id.b13 id.b14 h14),
    congrArg encChar (shapeH id.b14 h14),
    congrArg encChar (shapeI id.b14 id.b15 h15),
    congrArg encChar (shapeB id.b15)⟩

theorem digitsOf_len (id : SFID) : (digitsOf id).length = 26 := rfl

theorem digitsOf_lt (id : SFID) (h : Wf id) : ∀ d ∈ digitsOf id, d < 32 := by
  obtain ⟨h0, h1, h2, h3, h4, h5, h6, h7, h8, h9, h10, h11, h12, h13, h14, h15⟩ := h
  intro d hd
  simp only [digitsOf, List.mem_cons, List.not_mem_nil, or_false] at hd
  rcases hd with rfl | rfl | rfl | rfl | rfl | rfl | rfl | rfl | rfl | rfl | rfl | rfl | rfl | rfl | rfl | rfl | rfl | rfl | rfl | rfl | rfl | rfl | rfl | rfl | rfl | rfl <;> omega

theorem baseVal_digits (id : SFID) (h : Wf id) :
    baseVal 32 (digitsOf id) = bigEndianValue id := by
  obtain ⟨h0, h1, h2, h3, h4, h5, h6, h7, h8, h9, h10, h11, h12, h13, h14, h15⟩ := h
  simp only [digitsOf, bigEndianValue, SFID.bytes, baseVal, List.length_cons,
    List.length_nil]
  omega

/-- Parsing the text encoding of a well-formed identifier succeeds, in
both strict and non-strict mode, from any destination, and returns the
identifier itself. -/
theorem parse_marshal (id : SFID) (h : Wf id) (strict : Bool) (id0 : SFID) :
    parse (marshalText id) strict id0 = (none, id) := by
  obtain ⟨h0, h1, h2, h3, h4, h5, h6, h7, h8, h9, h10, h11, h12, h13, h14, h15⟩ := h
  rw [marshalText_arith id
    ⟨h0, h1, h2, h3, h4, h5, h6, h7, h8, h9, h10, h11, h12, h13, h14, h15⟩]
  simp only [digitsOf, List.map_cons, List.map_nil]
  rw [parse_explicit]
  have D0 : dec (encChar (id.b0 / 32)) = id.b0 / 32 := dec_enc _ (by omega)
  have D1 : dec (encChar (id.b0 % 32)) = id.b0 % 32 := dec_enc _ (by omega)
  have D2 : dec (encChar (id.b1 / 8)) = id.b1 / 8 := dec_enc _ (by omega)
  have D3 : dec (encChar (id.b1 % 8 * 4 + id.b2 / 64)) = id.b1 % 8 * 4 + id.b2 / 64 := dec_enc _ (by omega)
  have D4 : dec (encChar (id.b2 % 64 / 2)) = id.b2 % 64 / 2 := dec_enc _ (by omega)
  have D5 : dec (encChar (id.b2 % 2 * 16 + id.b3 / 16)) = id.b2 % 2 * 16 + id.b3 / 16 := dec_enc _ (by omega)
  have D6 : dec (encChar (id.b3 % 16 * 2 + id.b4 / 128)) = id.b3 % 16 * 2 + id.b4 / 128 := dec_enc _ (by omega)
  have D7 : dec (encChar (id.b4 % 128 / 4)) = id.b4 % 128 / 4 := dec_enc _ (by omega)
  have D8 : dec (encChar (id.b4 % 4 * 8 + id.b5 / 32)) = id.b4 % 4 * 8 + id.b5 / 32 := dec_enc _ (by omega)
  have D9 : dec (encChar (id.b5 % 32)) = id.b5 % 32 := dec_enc _ (by omega)
  have D10 : dec (encChar (id.b6 / 8)) = id.b6 / 8 := dec_enc _ (by omega)
  have D11 : dec (encChar (id.b6 % 8 * 4 + id.b7 / 64)) = id.b6 % 8 * 4 + id.b7 / 64 := dec_enc _ (by omega)
  have D12 : dec (encChar (id.b7 % 64 / 2)) = id.b7 % 64 / 2 := dec_enc _ (by omega)
  have D13 : dec (encChar (id.b7 % 2 * 16 + id.b8 / 16)) = id.b7 % 2 * 16 + id.b8 / 16 := dec_enc _ (by omega)
  have D14 : dec (encChar (id.b8 % 16 * 2 + id.b9 / 128)) = id.b8 % 16 * 2 + id.b9 / 128 := dec_enc _ (by omega)
  have D15 : dec (encChar (id.b9 % 128 / 4)) = id.b9 % 128 / 4 := dec_enc _ (by omega)
  have D16 : dec (encChar (id.b9 % 4 * 8 + id.b10 / 32)) = id.b9 % 4 * 8 + id.b10 / 32 := dec_enc _ (by omega)
  have D17 : dec (encChar (id.b10 % 32)) = id.b10 % 32 := dec_enc _ (by omega)
  have D18 : dec (encChar (id.b11 / 8)) = id.b11 / 8 := dec_enc _ (by omega)
  have D19 : dec (encChar (id.b11 % 8 * 4 + id.b12 / 64)) = id.b11 % 8 * 4 + id.b12 / 64 := dec_enc _ (by omega)
  have D20 : dec (encChar (id.b12 % 64 / 2)) = id.b12 % 64 / 2 := dec_enc _ (by omega)
  have D21 : dec (encChar (id.b12 % 2 * 16 + id.b13 / 16)) = id.b12 % 2 * 16 + id.b13 / 16 := dec_enc _ (by omega)
  have D22 : dec (encChar (id.b13 % 16 * 2 + id.b14 / 128)) = id.b13 % 16 * 2 + id.b14 / 128 := dec_enc _ (by omega)
  have D23 : dec (encChar (id.b14 % 128 / 4)) = id.b14 % 128 / 4 := dec_enc _ (by omega)
  have D24 : dec (encChar (id.b14 % 4 * 8 + id.b15 / 32)) = id.b14 % 4 * 8 + id.b15 / 32 := dec_enc _ (by omega)
  have D25 : dec (encChar (id.b15 % 32)) = id.b15 % 32 := dec_enc _ (by omega)
  rw [if_neg ?hstrict]
  case hstrict =>
    rintro ⟨-, hor⟩
    rw [D0, D1, D2, D3, D4, D5, D6, D7, D8, D9, D10, D11, D12, D13, D14, D15, D16, D17, D18, D19, D20, D21, D22, D23, D24, D25] at hor
    rcases hor with h | h | h | h | h | h | h | h | h | h | h | h | h | h | h | h | h | h | h | h | h | h | h | h | h | h <;> omega
  rw [if_neg ?hover]
  case hover =>
    have he := enc_le_55 (id.b0 / 32) (by omega)
    omega
  rw [Prod.mk.injEq]
  refine ⟨rfl, ?_⟩
  rw [D0, D1, D2, D3, D4, D5, D6, D7, D8, D9, D10, D11, D12, D13, D14, D15, D16, D17, D18, D19, D20, D21, D22, D23, D24, D25]
  ext
  · dsimp only
    rw [decE _ _ (by omega) (by omega)]
    omega
  · dsimp only
    rw [decA _ _ (by omega) (by omega)]
    omega
  · dsimp only
    rw [decB _ _ _ (by omega) (by omega) (by omega)]
    omega
  · dsimp only
    rw [decC _ _ (by omega) (by omega)]
    omega
  · dsimp only
    rw [decD _ _ _ (by omega) (by omega) (by omega)]
    omega
  · dsimp only
    rw [decE _ _ (by omega) (by omega)]
    omega
  · dsimp only
    rw [decA _ _ (by omega) (by omega)]
    omega
  · dsimp only
    rw [decB _ _ _ (by omega) (by omega) (by omega)]
    omega
  · dsimp only
    rw [decC _ _ (by omega) (by omega)]
    omega
  · dsimp only
    rw [decD _ _ _ (by omega) (by omega) (by omega)]
    omega
  · dsimp only
    rw [decE _ _ (by omega) (by omega)]
    omega
  · dsimp only
    rw [decA _ _ (by omega) (by omega)]
    omega
  · dsimp only
    rw [decB _ _ _ (by omega) (by omega) (by omega)]
    omega
  · dsimp only
    rw [decC _ _ (by omega) (by omega)]
    omega
  · dsimp only
    rw [decD _ _ _ (by omega) (by omega) (by omega)]
    omega
  · dsimp only
    rw [decE _ _ (by omega) (by omega)]
    omega

theorem listCompare_map_enc : ∀ ds es : List Nat, (∀ d ∈ ds, d < 32) →
    (∀ e ∈ es, e < 32) →
    listCompare (ds.map encChar) (es.map encChar) = listCompare ds es := by
  intro ds
  induction ds with
  | nil =>
    intro es _ _
    cases es <;> simp [listCompare]
  | cons d t ih =>
    intro es hd he
    cases es with
    | nil => simp [listCompare]
    | cons e u =>
      have hd0 : d < 32 := hd d (by simp)
      have he0 : e < 32 := he e (by simp)
      simp only [List.map_cons, listCompare]
      have hlt := enc_lt_iff d hd0 e he0
      have hgt := enc_lt_iff e he0 d hd0
      by_cases h1 : d < e
      · rw [if_pos (hlt.mpr h1), if_pos h1]
      · rw [if_neg (fun hc => h1 (hlt.mp hc)), if_neg h1]
        by_cases h2 : e < d
        · rw [if_pos (hgt.mpr h2), if_pos h2]
        · rw [if_neg (fun hc => h2 (hgt.mp hc)), if_neg h2]
          exact ih u (fun a ha => hd a (by simp [ha])) (fun a ha => he a (by simp [ha]))

/-! ### C2: strict monotonicity of the generator -/

/-- Invariant of the generator state: the sequence number fits in 24 bits
(it is always masked), the node id is a `uint16` value and the nonce was
validated at construction. -/
def Inv (s : Flake) : Prop :=
  s.sn ≤ SNMask ∧ s.node < 2 ^ 16 ∧ s.nonce ≤ MaxNonce

/-- The `(timestamp, sequence)` pair as a single number for lexicographic
reasoning. -/
def stKey (s : Flake) : Nat := s.tms * 2 ^ 24 + s.sn

/-- The numeric value of the identifier the generator would emit from a
given state. -/
def stVal (s : Flake) : Nat :=
  s.tms * 2 ^ 80 + s.node * 2 ^ 64 + s.nonce * 2 ^ 24 + s.sn

theorem step_node (s : Flake) (now : Nat) : (s.step now).node = s.node := by
  simp only [Flake.step]
  split_ifs <;> rfl

theorem step_nonce (s : Flake) (now : Nat) : (s.step now).nonce = s.nonce := by
  simp only [Flake.step]
  split_ifs <;> rfl

theorem step_Inv (s : Flake) (now : Nat) (h : Inv s) : Inv (s.step now) := by
  obtain ⟨h1, h2, h3⟩ := h
  simp only [Flake.step]
  have hm := and_SNMask_eq_mod (s.sn + 1)
  have hSN : SNMask = 16777215 := rfl
  split_ifs <;> refine ⟨?_, h2, h3⟩ <;> simp only [] <;> omega

theorem step_tms_le (s : Flake) (now : Nat) : s.tms ≤ (s.step now).tms := by
  simp only [Flake.step]
  split_ifs <;> simp only [] <;> omega

theorem step_key_lt (s : Flake) (now : Nat) (h : Inv s) :
    stKey s < stKey (s.step now) := by
  obtain ⟨h1, h2, h3⟩ := h
  simp only [Flake.step, stKey]
  have hm := and_SNMask_eq_mod (s.sn + 1)
  have hSN : SNMask = 16777215 := rfl
  split_ifs with hc1 hc2 <;> simp only [] <;> omega

theorem stVal_lt_of_key (s t : Flake) (hs : Inv s) (ht : Inv t)
    (hnode : s.node = t.node) (hnonce : s.nonce = t.nonce)
    (hk : stKey s < stKey t) : stVal s < stVal t := by
  obtain ⟨hs1, hs2, hs3⟩ := hs
  obtain ⟨ht1, ht2, ht3⟩ := ht
  unfold stKey at hk
  unfold stVal
  rw [hnode, hnonce]
  have hSN : SNMask = 16777215 := rfl
  omega

theorem next_snd_eq (s : Flake) (now : Nat) :
    (s.Next now).2 = buildSFID s.node s.nonce (s.step now).tms (s.step now).sn :=
  rfl

theorem next_emitted (s : Flake) (now : Nat) (h : Inv s)
    (htms : (s.step now).tms ≤ maxTime) :
    Wf (s.Next now).2 ∧ bigEndianValue (s.Next now).2 = stVal (s.step now) := by
  obtain ⟨h1, h2, h3⟩ := h
  have hInv' := step_Inv s now ⟨h1, h2, h3⟩
  obtain ⟨h1', h2', h3'⟩ := hInv'
  rw [step_node] at h2'
  rw [step_nonce] at h3'
  have hsn : (s.step now).sn ≤ maxSN := by
    rw [maxSN_eq]
    have hSN : SNMask = 16777215 := rfl
    omega
  obtain ⟨-, -, -, -, hwf, hval⟩ :=
    buildSFID_spec s.node s.nonce (s.step now).tms (s.step now).sn h2 h3 htms hsn
  refine ⟨?_, ?_⟩
  · rw [next_snd_eq]
    exact hwf
  · rw [next_snd_eq, hval]
    unfold stVal
    rw [step_node, step_nonce]

theorem runEnd_cons (s : Flake) (now : Nat) (rest : List Nat) :
    runEnd s (now :: rest) = runEnd (s.step now) rest := rfl

theorem runNext_cons (s : Flake) (now : Nat) (rest : List Nat) :
    runNext s (now :: rest) = (s.Next now).2 :: runNext (s.step now) rest := rfl

theorem runNext_length (nows : List Nat) : ∀ s : Flake,
    (runNext s nows).length = nows.length := by
  induction nows with
  | nil => intro s; rfl
  | cons now rest ih =>
    intro s
    rw [runNext_cons]
    simp [ih]

theorem runEnd_tms_le (nows : List Nat) : ∀ s : Flake,
    s.tms ≤ (runEnd s nows).tms := by
  induction nows with
  | nil => intro s; exact le_refl _
  | cons now rest ih =>
    intro s
    rw [runEnd_cons]
    exact le_trans (step_tms_le s now) (ih (s.step now))

theorem run_val_lt (nows : List Nat) : ∀ s : Flake, Inv s →
    (runEnd s nows).tms ≤ maxTime →
    ∀ b ∈ runNext s nows, Wf b ∧ stVal s < bigEndianValue b := by
  induction nows with
  | nil =>
    intro s _ _ b hb
    simp [runNext] at hb
  | cons now rest ih =>
    intro s hInv hEnd b hb
    have hInv' := step_Inv s now hInv
    rw [runEnd_cons] at hEnd
    have htms1 : (s.step now).tms ≤ maxTime :=
      le_trans (runEnd_tms_le rest (s.step now)) hEnd
    have hkey := step_key_lt s now hInv
    have hlt : stVal s < stVal (s.step now) :=
      stVal_lt_of_key s (s.step now) hInv hInv'
        (step_node s now).symm (step_nonce s now).symm hkey
    rw [runNext_cons] at hb
    rcases List.mem_cons.mp hb with rfl | hb'
    · obtain ⟨hwf, hval⟩ := next_emitted s now hInv htms1
      exact ⟨hwf, by rw [hval]; exact hlt⟩
    · obtain ⟨hwf, hval⟩ := ih (s.step now) hInv' hEnd b hb'
      exact ⟨hwf, lt_trans hlt hval⟩

theorem run_pairwise (nows : List Nat) : ∀ s : Flake, Inv s →
    (runEnd s nows).tms ≤ maxTime →
    List.Pairwise
      (fun a b => Wf a ∧ Wf b ∧ bigEndianValue a < bigEndianValue b)
      (runNext s nows) := by
  induction nows with
  | nil => intro s _ _; exact List.Pairwise.nil
  | cons now rest ih =>
    intro s hInv hEnd
    have hInv' := step_Inv s now hInv
    rw [runEnd_cons] at hEnd
    have htms1 : (s.step now).tms ≤ maxTime :=
      le_trans (runEnd_tms_le rest (s.step now)) hEnd
    rw [runNext_cons]
    rw [List.pairwise_cons]
    refine ⟨?_, ih (s.step now) hInv' hEnd⟩
    intro b hb
    obtain ⟨hwfb, hvalb⟩ := run_val_lt rest (s.step now) hInv' hEnd b hb
    obtain ⟨hwf, hval⟩ := next_emitted s now hInv htms1
    exact ⟨hwf, hwfb, by rw [hval]; exact hvalb⟩

/-! #### Comparison agrees with numeric value -/

theorem baseVal_lt_pow (B : Nat) : ∀ xs : List Nat,
    (∀ a ∈ xs, a < B) → baseVal B xs < B ^ xs.length := by
  intro xs
  induction xs with
  | nil => intro _; simp [baseVal]
  | cons x t ih =>
    intro h
    have hx : x < B := h x (by simp)
    have ht := ih (fun a ha => h a (by simp [ha]))
    simp only [baseVal, List.length_cons]
    calc x * B ^ t.length + baseVal B t
        < x * B ^ t.length + B ^ t.length := Nat.add_lt_add_left ht _
      _ = (x + 1) * B ^ t.length := by ring
      _ ≤ B * B ^ t.length := Nat.mul_le_mul_right _ (by omega)
      _ = B ^ (t.length + 1) := by ring

theorem cmpInt_add_left (c m n : Nat) : cmpInt (c + m) (c + n) = cmpInt m n := by
  unfold cmpInt
  split_ifs <;> omega

theorem listCompare_cmpInt (B : Nat) : ∀ xs ys : List Nat,
    xs.length = ys.length → (∀ a ∈ xs, a < B) → (∀ a ∈ ys, a < B) →
    listCompare xs ys = cmpInt (baseVal B xs) (baseVal B ys) := by
  intro xs
  induction xs with
  | nil =>
    intro ys h _ _
    cases ys with
    | nil => simp [listCompare, baseVal, cmpInt]
    | cons y u => simp at h
  | cons x t ih =>
    intro ys h hx hy
    cases ys with
    | nil => simp at h
    | cons y u =>
      have hlen : t.length = u.length := by simpa using h
      have hxB : x < B := hx x (by simp)
      have hyB : y < B := hy y (by simp)
      have htB : ∀ a ∈ t, a < B := fun a ha => hx a (by simp [ha])
      have huB : ∀ a ∈ u, a < B := fun a ha => hy a (by simp [ha])
      have htv := baseVal_lt_pow B t htB
      have huv := baseVal_lt_pow B u huB
      simp only [listCompare, baseVal, hlen]
      rcases Nat.lt_trichotomy x y with h1 | h1 | h1
      · rw [if_pos h1]
        have hv : x * B ^ u.length + baseVal B t <
            y * B ^ u.length + baseVal B u := by
          rw [hlen] at htv
          calc x * B ^ u.length + baseVal B t
              < x * B ^ u.length + B ^ u.length := Nat.add_lt_add_left htv _
            _ = (x + 1) * B ^ u.length := by ring
            _ ≤ y * B ^ u.length := Nat.mul_le_mul_right _ (by omega)
            _ ≤ y * B ^ u.length + baseVal B u := Nat.le_add_right _ _
        unfold cmpInt
        rw [if_pos hv]
      · subst h1
        rw [if_neg (lt_irrefl x), if_neg (lt_irrefl x)]
        rw [cmpInt_add_left]
        exact ih u hlen htB huB
      · rw [if_neg (by omega), if_pos h1]
        have hv : y * B ^ u.length + baseVal B u <
            x * B ^ u.length + baseVal B t := by
          calc y * B ^ u.length + baseVal B u
              < y * B ^ u.length + B ^ u.length := Nat.add_lt_add_left huv _
            _ = (y + 1) * B ^ u.length := by ring
            _ ≤ x * B ^ u.length := Nat.mul_le_mul_right _ (by omega)
            _ ≤ x * B ^ u.length + baseVal B t := Nat.le_add_right _ _
        unfold cmpInt
        rw [if_neg (by omega), if_pos hv]

theorem bytes_mem_lt (id : SFID) (h : Wf id) : ∀ a ∈ id.bytes, a < 256 := by
  obtain ⟨h0, h1, h2, h3, h4, h5, h6, h7, h8, h9, h10, h11, h12, h13, h14, h15⟩ := h
  intro a ha
  simp only [SFID.bytes, List.mem_cons, List.not_mem_nil, or_false] at ha
  rcases ha with rfl | rfl | rfl | rfl | rfl | rfl | rfl | rfl | rfl | rfl |
    rfl | rfl | rfl | rfl | rfl | rfl <;> assumption

theorem Compare_eq_cmpInt (a b : SFID) (ha : Wf a) (hb : Wf b) :
    a.Compare b = cmpInt (bigEndianValue a) (bigEndianValue b) := by
  unfold SFID.Compare bigEndianValue
  exact listCompare_cmpInt 256 a.bytes b.bytes (by simp [SFID.bytes])
    (bytes_mem_lt a ha) (bytes_mem_lt b hb)

/-- C2: along any sequence of non-overlapping `Next` calls on a single
generator (one call per wall-clock reading in `nows`, within the 48-bit
lifetime of the timestamp field), an identifier emitted by an earlier call
compares strictly less than one emitted by a later call, and no two
emitted identifiers are equal; the `(timestamp, sequence)` state increases
strictly lexicographically on every step. -/
theorem c2_next_monotonic (s : Flake) (nows : List Nat) (hs : s.sn ≤ SNMask)
    (hn : s.node < 2 ^ 16) (hnc : s.nonce ≤ MaxNonce)
    (hEnd : (runEnd s nows).tms ≤ maxTime) :
    (∀ now, stKey s < stKey (s.step now)) ∧
    ∀ i j, i < j → j < nows.length →
      ((runNext s nows).getD i zeroSFID).Compare
        ((runNext s nows).getD j zeroSFID) < 0 ∧
      (runNext s nows).getD i zeroSFID ≠ (runNext s nows).getD j zeroSFID := by
  have hInv : Inv s := ⟨hs, hn, hnc⟩
  refine ⟨fun now => step_key_lt s now hInv, ?_⟩
  intro i j hij hj
  have hp := run_pairwise nows s hInv hEnd
  rw [List.pairwise_iff_get] at hp
  have hleng := runNext_length nows s
  have hi : i < (runNext s nows).length := by omega
  have hjl : j < (runNext s nows).length := by omega
  have hrel := hp ⟨i, hi⟩ ⟨j, hjl⟩ (by simpa using hij)
  obtain ⟨hwa, hwb, hv⟩ := hrel
  rw [List.getD_eq_get _ _ hi, List.getD_eq_get _ _ hjl]
  constructor
  · rw [Compare_eq_cmpInt _ _ hwa hwb]
    unfold cmpInt
    rw [if_pos hv]
    omega
  · intro hcontra
    rw [hcontra] at hv
    exact lt_irrefl _ hv

/-- C2 witness at a concrete instance. -/
theorem c2_next_monotonic_witness :
    (∀ now, stKey ⟨0, 1, 2, 0⟩ < stKey (Flake.step ⟨0, 1, 2, 0⟩ now)) ∧
    ∀ i j, i < j → j < [5, 5, 7].length →
      ((runNext ⟨0, 1, 2, 0⟩ [5, 5, 7]).getD i zeroSFID).Compare
        ((runNext ⟨0, 1, 2, 0⟩ [5, 5, 7]).getD j zeroSFID) < 0 ∧
      (runNext ⟨0, 1, 2, 0⟩ [5, 5, 7]).getD i zeroSFID ≠
        (runNext ⟨0, 1, 2, 0⟩ [5, 5, 7]).getD j zeroSFID :=
  c2_next_monotonic ⟨0, 1, 2, 0⟩ [5, 5, 7] (by decide) (by decide) (by decide)
    (by decide)

/-- C5 witness at a concrete instance. -/
theorem c5_sequence_wraparound_witness :
    (∀ sPrev : Flake, sPrev.node = 1 → sPrev.nonce = 2 →
      sPrev.tms < 10 → (sPrev.Next 10).1 = ⟨0, 1, 2, 10⟩) ∧
    (∀ k, k ≤ SNMask →
      (fun s : Flake => (s.Next 10).1)^[k] ⟨0, 1, 2, 10⟩ = ⟨k, 1, 2, 10⟩) ∧
    (Flake.Next ⟨SNMask, 1, 2, 10⟩ 10).1 = ⟨0, 1, 2, 10 + 1⟩ ∧
    (Flake.Next ⟨SNMask, 1, 2, 10⟩ 10).2.Time = 10 + 1 ∧
    (Flake.Next ⟨SNMask, 1, 2, 10⟩ 10).2.SN = 0 :=
  c5_sequence_wraparound 1 2 10 (by decide) (by decide) (by decide)

/-! ### C1: round-trips of the binary and text codecs -/

/-- C1: for every 16-byte identifier, `UnmarshalBinary` after
`MarshalBinary` returns the identifier unchanged, and parsing the
26-character text encoding — strictly or not, into any destination —
returns the identifier; in particular the text encoding of an identifier
never triggers the size, overflow, or invalid-character failures of
parsing. -/
theorem c1_roundtrip (id : SFID) (h : Wf id) :
    (∀ id0, SFID.UnmarshalBinary id0 (SFID.MarshalBinary id) = (none, id)) ∧
    (∀ id0 strict, parse (marshalText id) strict id0 = (none, id)) ∧
    Parse (SFID.text id) = (none, id) ∧
    ParseStrict (SFID.text id) = (none, id) := by
  refine ⟨fun id0 => ?_, fun id0 strict => parse_marshal id h strict id0,
    parse_marshal id h false zeroSFID, parse_marshal id h true zeroSFID⟩
  rfl

/-- C1 witness at a concrete identifier. -/
theorem c1_roundtrip_witness :
    Wf ⟨1, 2, 3, 4, 5, 6, 7, 8, 9, 10, 11, 12, 13, 14, 255, 254⟩ ∧
    ((∀ id0, SFID.UnmarshalBinary id0
        (SFID.MarshalBinary ⟨1, 2, 3, 4, 5, 6, 7, 8, 9, 10, 11, 12, 13, 14, 255, 254⟩) =
        (none, ⟨1, 2, 3, 4, 5, 6, 7, 8, 9, 10, 11, 12, 13, 14, 255, 254⟩)) ∧
      (∀ id0 strict, parse
        (marshalText ⟨1, 2, 3, 4, 5, 6, 7, 8, 9, 10, 11, 12, 13, 14, 255, 254⟩) strict id0 =
        (none, ⟨1, 2, 3, 4, 5, 6, 7, 8, 9, 10, 11, 12, 13, 14, 255, 254⟩)) ∧
      Parse (SFID.text ⟨1, 2, 3, 4, 5, 6, 7, 8, 9, 10, 11, 12, 13, 14, 255, 254⟩) =
        (none, ⟨1, 2, 3, 4, 5, 6, 7, 8, 9, 10, 11, 12, 13, 14, 255, 254⟩) ∧
      ParseStrict (SFID.text ⟨1, 2, 3, 4, 5, 6, 7, 8, 9, 10, 11, 12, 13, 14, 255, 254⟩) =
        (none, ⟨1, 2, 3, 4, 5, 6, 7, 8, 9, 10, 11, 12, 13, 14, 255, 254⟩)) :=
  ⟨by decide, c1_roundtrip ⟨1, 2, 3, 4, 5, 6, 7, 8, 9, 10, 11, 12, 13, 14, 255, 254⟩ (by decide)⟩

/-! ### C3: ordering fidelity of Compare -/

/-- C3: for all identifiers, `Compare` agrees with the plain byte-wise
string comparison of the 26-character text encodings, equals the unsigned
big-endian numeric comparison of the 128-bit values, and returns exactly
-1, 0 or +1. -/
theorem c3_compare_fidelity (a b : SFID) (ha : Wf a) (hb : Wf b) :
    a.Compare b = listCompare (SFID.text a) (SFID.text b) ∧
    a.Compare b = cmpInt (bigEndianValue a) (bigEndianValue b) ∧
    (a.Compare b = -1 ∨ a.Compare b = 0 ∨ a.Compare b = 1) := by
  have h2 : a.Compare b = cmpInt (bigEndianValue a) (bigEndianValue b) :=
    Compare_eq_cmpInt a b ha hb
  refine ⟨?_, h2, ?_⟩
  · show a.Compare b = listCompare (marshalText a) (marshalText b)
    rw [marshalText_arith a ha, marshalText_arith b hb,
      listCompare_map_enc _ _ (digitsOf_lt a ha) (digitsOf_lt b hb),
      listCompare_cmpInt 32 _ _ (by rw [digitsOf_len, digitsOf_len])
        (digitsOf_lt a ha) (digitsOf_lt b hb),
      baseVal_digits a ha, baseVal_digits b hb]
    exact h2
  · rw [h2]
    unfold cmpInt
    split_ifs <;> simp

/-- C3 witness at concrete identifiers. -/
theorem c3_compare_fidelity_witness :
    SFID.Compare ⟨0, 0, 0, 0, 0, 0, 0, 0, 0, 0, 0, 0, 0, 0, 0, 7⟩
        ⟨0, 0, 0, 0, 0, 0, 0, 0, 0, 0, 0, 0, 0, 0, 1, 9⟩ =
      listCompare (SFID.text ⟨0, 0, 0, 0, 0, 0, 0, 0, 0, 0, 0, 0, 0, 0, 0, 7⟩)
        (SFID.text ⟨0, 0, 0, 0, 0, 0, 0, 0, 0, 0, 0, 0, 0, 0, 1, 9⟩) ∧
    SFID.Compare ⟨0, 0, 0, 0, 0, 0, 0, 0, 0, 0, 0, 0, 0, 0, 0, 7⟩
        ⟨0, 0, 0, 0, 0, 0, 0, 0, 0, 0, 0, 0, 0, 0, 1, 9⟩ =
      cmpInt (bigEndianValue ⟨0, 0, 0, 0, 0, 0, 0, 0, 0, 0, 0, 0, 0, 0, 0, 7⟩)
        (bigEndianValue ⟨0, 0, 0, 0, 0, 0, 0, 0, 0, 0, 0, 0, 0, 0, 1, 9⟩) ∧
    (SFID.Compare ⟨0, 0, 0, 0, 0, 0, 0, 0, 0, 0, 0, 0, 0, 0, 0, 7⟩
        ⟨0, 0, 0, 0, 0, 0, 0, 0, 0, 0, 0, 0, 0, 0, 1, 9⟩ = -1 ∨
      SFID.Compare ⟨0, 0, 0, 0, 0, 0, 0, 0, 0, 0, 0, 0, 0, 0, 0, 7⟩
        ⟨0, 0, 0, 0, 0, 0, 0, 0, 0, 0, 0, 0, 0, 0, 1, 9⟩ = 0 ∨
      SFID.Compare ⟨0, 0, 0, 0, 0, 0, 0, 0, 0, 0, 0, 0, 0, 0, 0, 7⟩
        ⟨0, 0, 0, 0, 0, 0, 0, 0, 0, 0, 0, 0, 0, 0, 1, 9⟩ = 1) :=
  c3_compare_fidelity ⟨0, 0, 0, 0, 0, 0, 0, 0, 0, 0, 0, 0, 0, 0, 0, 7⟩
    ⟨0, 0, 0, 0, 0, 0, 0, 0, 0, 0, 0, 0, 0, 0, 1, 9⟩ (by decide) (by decide)

end SnowflakePro
